import Mathlib

/-!
Verification of the XiaomaPPTGenerator core (src/main.py) against its
natural-language specification.  The Python program is shallowly embedded:

* the Excel table-shaping logic of `MainWindow.load_excel` becomes `load_excel`
  over a raw grid of cells;
* the column classification and per-question scoring of
  `MainWindow.analyze_questions` become `findNameColumn`, `allQuestionColumns`,
  `subjectiveColumns`, `objectiveColumns`, `scoreStep` and `analyze_questions`;
* the region store of `ImageCropWidget` (mouse admission, undo, JSON
  save/load, crop-coordinate mapping) becomes `RegionStore`, `mouseReleaseEvent`,
  `clear_last`, `save_regions_config`, `load_regions_config`, `cropBounds`.

Dynamically typed Python cell values are embedded by their observable
behaviour: `pd.isna(v)`, `str(v)` and `float(v)` are the three operations the
scorer performs on a cell, so a cell is a record of those three results.
-/

namespace Xiaoma

/-- Substring search on character lists: `subList p l` is true iff `p` occurs
contiguously inside `l`.  This models Python's `pat in s` for strings. -/
def subList (p : List Char) : List Char → Bool
  | [] => p.isEmpty
  | c :: rest => p.isPrefixOf (c :: rest) || subList p rest

/-- Python's substring test `pat in s`. -/
def strIn (pat s : String) : Bool := subList pat.toList s.toList

/-- Python's `str.isdigit` restricted to ASCII digits: true iff the string is
non-empty and every character is a digit. -/
def pyIsDigit (s : String) : Bool := !s.isEmpty && s.toList.all Char.isDigit

/-- Python's `str.strip()`: remove leading and trailing whitespace. -/
def pyStrip (s : String) : String :=
  ⟨((s.toList.dropWhile Char.isWhitespace).reverse.dropWhile
      Char.isWhitespace).reverse⟩

/-- Python's `str.lower()` on ASCII letters (other characters unchanged). -/
def pyLower (s : String) : String := ⟨s.toList.map Char.toLower⟩

/-- The header transform `col_str.replace('.', '').replace('-', '')` applied
before the digit test in `analyze_questions`: replacing a single character by
the empty string deletes every occurrence of it. -/
def stripDotDash (s : String) : String :=
  ⟨s.toList.filter fun c => c != '.' && c != '-'⟩

/-- A Python cell value, embedded by the three observations the program makes
of it: `isna` is `pd.isna(value)`, `text` is `str(value)`, and `toFloat` is
`float(value)` (`none` when the conversion raises).  A pandas missing value
has `isna = true`, `text = "nan"`, `toFloat = none`; a plain string `s` has
`isna = false`, `text = s`, and `toFloat` given by Python float parsing. -/
structure Cell where
  isna : Bool
  text : String
  toFloat : Option ℚ
  deriving DecidableEq, Repr

/-- A cell holding a string with no numeric reading (Python `float(s)` raises). -/
def strCell (s : String) : Cell := ⟨false, s, none⟩

/-- A cell holding a numeric value `q` whose `str()` rendering is `txt`. -/
def numCell (q : ℚ) (txt : String) : Cell := ⟨false, txt, some q⟩

/-- The pandas missing value (`NaN`): `pd.isna` is true, `str` gives `"nan"`,
`float(nan)` is the non-number `nan`, which the scorer's string guard catches
first; its numeric reading is irrelevant and modelled as `none`. -/
def naCell : Cell := ⟨true, "nan", none⟩

/-- Stringification of a raw-grid cell, as done by `.astype(str)` /
`str(val)` in `load_excel`. -/
def cellStr (c : Cell) : String := c.text

/-- The loaded table: stringified column headers plus data rows of cells.
Mirrors the `self.df` produced by `load_excel`. -/
structure Table where
  headers : List String
  rows : List (List Cell)
  deriving DecidableEq, Repr

/-- True iff some cell of the row stringifies to a text containing the
identity marker token `"姓名"` — the header test
`any('姓名' in str(val) for val in row_values)` of `load_excel`. -/
def rowHasNameMarker (row : List Cell) : Bool :=
  row.any fun c => strIn "姓名" (cellStr c)

/-- The header scan loop `for i in range(min(5, len(df_raw)))` of
`load_excel`: starting at index `i` with `fuel` trials left, return the first
row index whose row contains the identity marker. -/
def headerScanAux (grid : List (List Cell)) : ℕ → ℕ → Option ℕ
  | 0, _ => none
  | fuel + 1, i =>
    if rowHasNameMarker (grid.getD i []) then some i
    else headerScanAux grid fuel (i + 1)

/-- Header resolution of `load_excel`: the first row index `< min(5, rows)`
whose row contains the identity marker token, else `none`. -/
def headerRowIndex (grid : List (List Cell)) : Option ℕ :=
  headerScanAux grid (min 5 grid.length) 0

/-- A row every cell of which is pandas-missing; `dropna(how='all')` removes
exactly these rows. -/
def rowAllMissing (row : List Cell) : Bool := row.all fun c => c.isna

/-- `df.dropna(how='all')` on the data rows. -/
def dropAllMissing (rows : List (List Cell)) : List (List Cell) :=
  rows.filter fun r => !rowAllMissing r

/-- The concatenation `' '.join(first_data_row)` of the stringified cells of a
row, used for the `'得分' in ...` test in `load_excel`. -/
def joinSpace (row : List Cell) : String :=
  String.intercalate " " (row.map cellStr)

/-- The table-shaping logic of `MainWindow.load_excel` on a raw grid
(`pd.read_excel(filename, header=None)` result): find the header row among
the first five rows; if found, use it as the header and drop the first data
row when its concatenated text contains the score-label marker `"得分"`;
otherwise parse with the default first-row-as-header convention; finally drop
fully-empty rows (`dropna(how='all')`). -/
def load_excel (grid : List (List Cell)) : Table :=
  match headerRowIndex grid with
  | some k =>
    let headers := (grid.getD k []).map cellStr
    let data := grid.drop (k + 1)
    let data :=
      match data with
      | [] => []
      | r0 :: rest => if strIn "得分" (joinSpace r0) then rest else r0 :: rest
    ⟨headers, dropAllMissing data⟩
  | none =>
    match grid with
    | [] => ⟨[], []⟩
    | r0 :: rest => ⟨r0.map cellStr, dropAllMissing rest⟩

/-- The identity-column test of `analyze_questions`:
`'姓名' in col_str or 'name' in col_str.lower() or '学生' in col_str`. -/
def isNameHeader (h : String) : Bool :=
  strIn "姓名" h || strIn "name" (pyLower h) || strIn "学生" h

/-- Identity-column selection of `analyze_questions`: the first header
matching `isNameHeader`, else the fallback third/second/first column.  The
source indexes `columns[0]` even on an empty header list (which would raise);
that vacuous case is modelled as the empty string and never relied upon. -/
def findNameColumn (headers : List String) : String :=
  match headers.find? isNameHeader with
  | some h => h
  | none =>
    if headers.length > 2 then headers.getD 2 ""
    else if headers.length > 1 then headers.getD 1 ""
    else headers.getD 0 ""

/-- The score-column test of `analyze_questions`: header contains the
full-score marker `"满分"` or the question marker `"题"`, or is purely
numeric after stripping dots and dashes and is not the identity column. -/
def isScoreHeader (nameCol h : String) : Bool :=
  strIn "满分" h || strIn "题" h || (pyIsDigit (stripDotDash h) && h != nameCol)

/-- The subjective marker test: `'主-' in col_str or '主' in col_str[:2]`. -/
def hasSubjMarker (h : String) : Bool := strIn "主-" h || strIn "主" (h.take 2)

/-- The objective marker test: `'客-' in col_str or '客' in col_str[:2]`. -/
def hasObjMarker (h : String) : Bool := strIn "客-" h || strIn "客" (h.take 2)

/-- `all_question_columns` of `analyze_questions`: every header passing the
score-column test, in table order. -/
def allQuestionColumns (headers : List String) : List String :=
  headers.filter (isScoreHeader (findNameColumn headers))

/-- `subjective_columns` of `analyze_questions`: a score column goes here when
it carries the subjective marker, or carries neither marker (the default
branch). -/
def subjectiveColumns (headers : List String) : List String :=
  (allQuestionColumns headers).filter fun h => hasSubjMarker h || !hasObjMarker h

/-- `objective_columns` of `analyze_questions`: a score column goes here when
it carries the objective marker and not the subjective one. -/
def objectiveColumns (headers : List String) : List String :=
  (allQuestionColumns headers).filter fun h => !hasSubjMarker h && hasObjMarker h

/-- `score_columns` of `analyze_questions`: the subjective list when
non-empty, else all detected question columns. -/
def chosenScoreColumns (headers : List String) : List String :=
  if (subjectiveColumns headers).isEmpty then allQuestionColumns headers
  else subjectiveColumns headers

/-- The unanswered tokens of `analyze_questions`:
`score_str in ['-', '', 'nan', 'NaN']`. -/
def unansweredTokens : List String := ["-", "", "nan", "NaN"]

/-- The row-skip test on the identity cell of `analyze_questions`:
`pd.isna(...)` or blank after strip, or a header-echo token. -/
def skipNameRow (c : Cell) : Bool :=
  c.isna || pyStrip c.text == "" || ["姓名", "学生", "name", "Name"].contains (pyStrip c.text)

/-- The per-column tally being built by the row loop of `analyze_questions`. -/
structure ScoreState where
  wrong_students : List String
  correct_count : ℕ
  wrong_count : ℕ
  total_students : ℕ
  deriving DecidableEq, Repr

/-- The tally at the start of each column's row loop. -/
def initState : ScoreState := ⟨[], 0, 0, 0⟩

/-- One iteration of the row loop of `analyze_questions`: skip rows with a
missing/blank/header-echo identity cell; skip unanswered tokens; attempt
`float(score)`; on success count the row, zero score appending the student to
the wrong list, nonzero counting as correct; on failure skip the row. -/
def scoreStep (st : ScoreState) (nameCell scoreCell : Cell) : ScoreState :=
  if skipNameRow nameCell then st
  else
    let score_str := pyStrip scoreCell.text
    if unansweredTokens.contains score_str then st
    else
      match scoreCell.toFloat with
      | none => st
      | some v =>
        if v = 0 then
          { st with wrong_students := st.wrong_students ++ [pyStrip nameCell.text],
                    wrong_count := st.wrong_count + 1,
                    total_students := st.total_students + 1 }
        else
          { st with correct_count := st.correct_count + 1,
                    total_students := st.total_students + 1 }

/-- The per-question statistics record stored in `stats[idx]` by
`analyze_questions`. -/
structure QuestionScoreRecord where
  wrong_students : List String
  correct_count : ℕ
  wrong_count : ℕ
  correct_rate : ℚ
  column_name : String
  deriving DecidableEq, Repr

/-- `row[col]`: label-based cell access, the cell at the first index whose
header equals `col` (missing access modelled as a pandas missing value). -/
def getCellByHeader (t : Table) (row : List Cell) (col : String) : Cell :=
  row.getD (t.headers.indexOf col) naCell

/-- The whole row loop of `analyze_questions` for one score column, packaging
the final tally into a `QuestionScoreRecord` with
`correct_rate = correct / (correct + wrong) * 100` (0 when no gradable rows). -/
def scoreOneColumn (t : Table) (col : String) : QuestionScoreRecord :=
  let nameCol := findNameColumn t.headers
  let final := t.rows.foldl
    (fun st row =>
      scoreStep st (getCellByHeader t row nameCol) (getCellByHeader t row col))
    initState
  let total := final.correct_count + final.wrong_count
  { wrong_students := final.wrong_students
    correct_count := final.correct_count
    wrong_count := final.wrong_count
    correct_rate := if 0 < total then (final.correct_count : ℚ) / total * 100 else 0
    column_name := col }

/-- `MainWindow.analyze_questions`: pick the score columns (subjective list if
non-empty, else all question columns) and score each, keyed by its 1-based
position in the chosen list (`enumerate(score_columns, 1)`). -/
def analyze_questions (t : Table) : List (ℕ × QuestionScoreRecord) :=
  (chosenScoreColumns t.headers).enum.map fun p => (p.1 + 1, scoreOneColumn t p.2)

/-- Python `int()` applied to a (finite) float/ratio: truncation toward zero. -/
def pyInt (q : ℚ) : ℤ := if q < 0 then -(-q).floor else q.floor

/-- The value of a non-empty ASCII digit string. -/
def digitsToNat (l : List Char) : ℕ :=
  l.foldl (fun a c => a * 10 + (c.toNat - Char.toNat (Char.ofNat 48))) 0

/-- Python `int(s)` on a string: strip whitespace, optional sign, then a
non-empty run of digits; anything else raises (`none`). -/
def pyIntOfString (s : String) : Option ℤ :=
  match (pyStrip s).toList with
  | '-' :: rest =>
    if !rest.isEmpty && rest.all Char.isDigit then some (-(digitsToNat rest : ℤ)) else none
  | '+' :: rest =>
    if !rest.isEmpty && rest.all Char.isDigit then some (digitsToNat rest : ℤ) else none
  | l => if !l.isEmpty && l.all Char.isDigit then some (digitsToNat l : ℤ) else none

/-- A JSON value as it appears in a region persistence file: a number (ints
and floats both embed into ℚ), a string, or null. -/
inductive JVal
  | num (q : ℚ)
  | str (s : String)
  | null
  deriving DecidableEq, Repr

/-- Python `int(v)` on a JSON value: truncate a number, parse a string,
raise on null. -/
def JVal.pyIntOf : JVal → Option ℤ
  | .num q => some (pyInt q)
  | .str s => pyIntOfString s
  | .null => none

/-- One record of the region persistence file.  A field is `none` when the
key is absent from the JSON object (`item['x']` would raise `KeyError`). -/
structure RawRecord where
  question_number : Option JVal
  x : Option JVal
  y : Option JVal
  width : Option JVal
  height : Option JVal
  deriving DecidableEq, Repr

/-- `int(item[key])`: `none` when the key is missing or the conversion raises. -/
def getIntField (o : Option JVal) : Option ℤ := o.bind JVal.pyIntOf

/-- Qt's `QRect`, by its internal representation: the two corner points
`(x1, y1)` and `(x2, y2)`.  Note Qt's historical convention:
`right() = x2 = left() + width() - 1` and `bottom() = y2 = top() + height() - 1`. -/
structure Rect where
  x1 : ℤ
  y1 : ℤ
  x2 : ℤ
  y2 : ℤ
  deriving DecidableEq, Repr

/-- `QRect.x()`. -/
def Rect.x (r : Rect) : ℤ := r.x1

/-- `QRect.y()`. -/
def Rect.y (r : Rect) : ℤ := r.y1

/-- `QRect.right()`, which is `x + width - 1` in Qt. -/
def Rect.right (r : Rect) : ℤ := r.x2

/-- `QRect.bottom()`, which is `y + height - 1` in Qt. -/
def Rect.bottom (r : Rect) : ℤ := r.y2

/-- `QRect.width() = x2 - x1 + 1`. -/
def Rect.width (r : Rect) : ℤ := r.x2 - r.x1 + 1

/-- `QRect.height() = y2 - y1 + 1`. -/
def Rect.height (r : Rect) : ℤ := r.y2 - r.y1 + 1

/-- The `QRect(x, y, w, h)` constructor used by `load_regions_config`:
corners `(x, y)` and `(x + w - 1, y + h - 1)`. -/
def Rect.ofXYWH (x y w h : ℤ) : Rect := ⟨x, y, x + w - 1, y + h - 1⟩

/-- The `QRect(topLeft, bottomRight)` constructor used by
`mouseReleaseEvent`: the two points become the two corners. -/
def Rect.ofPoints (p1 p2 : ℤ × ℤ) : Rect := ⟨p1.1, p1.2, p2.1, p2.2⟩

/-- `QRect.normalized()` (Qt 5 source): swap the x corners when
`x2 < x1 - 1`, and the y corners when `y2 < y1 - 1`. -/
def Rect.normalized (r : Rect) : Rect :=
  let xs := if r.x2 < r.x1 - 1 then (r.x2, r.x1) else (r.x1, r.x2)
  let ys := if r.y2 < r.y1 - 1 then (r.y2, r.y1) else (r.y1, r.y2)
  ⟨xs.1, ys.1, xs.2, ys.2⟩

/-- The Region Store state held by `ImageCropWidget`: the ordered rectangle
list `self.rectangles` (each entry a rectangle and its question-number tag —
a dynamically typed value, an int in the UI path but whatever the JSON file
held in the load path) and the counter `self.current_question_number`. -/
structure RegionStore where
  rectangles : List (Rect × JVal)
  current_question_number : ℚ
  deriving DecidableEq, Repr

/-- The store as initialised in `ImageCropWidget.__init__`. -/
def RegionStore.init : RegionStore := ⟨[], 1⟩

/-- The admission path of `ImageCropWidget.mouseReleaseEvent`: normalize the
rectangle spanned by the press and release points; append it tagged with the
current question number and increment the counter iff width and height both
exceed 10 pixels. -/
def mouseReleaseEvent (s : RegionStore) (start_point end_point : ℤ × ℤ) :
    RegionStore :=
  let rect := (Rect.ofPoints start_point end_point).normalized
  if 10 < rect.width ∧ 10 < rect.height then
    { rectangles := s.rectangles ++ [(rect, JVal.num s.current_question_number)],
      current_question_number := s.current_question_number + 1 }
  else s

/-- `ImageCropWidget.clear_last`: pop the most recent rectangle and decrement
the counter; no-op on an empty store. -/
def clear_last (s : RegionStore) : RegionStore :=
  if s.rectangles.isEmpty then s
  else ⟨s.rectangles.dropLast, s.current_question_number - 1⟩

/-- `ImageCropWidget.clear_all`: drop every rectangle and reset the counter. -/
def clear_all (_ : RegionStore) : RegionStore := ⟨[], 1⟩

/-- One record written by `ImageCropWidget.save_regions_config`:
`{question_number, x, y, width, height}` from the accessors of the stored
rectangle. -/
def serializeRegion (p : Rect × JVal) : RawRecord :=
  { question_number := some p.2
    x := some (.num (p.1.x : ℚ))
    y := some (.num (p.1.y : ℚ))
    width := some (.num (p.1.width : ℚ))
    height := some (.num (p.1.height : ℚ)) }

/-- `ImageCropWidget.save_regions_config`: the JSON record list, one record
per stored rectangle, in store order. -/
def save_regions_config (s : RegionStore) : List RawRecord :=
  s.rectangles.map serializeRegion

/-- The record loop of `ImageCropWidget.load_regions_config`, with Python
exception semantics made explicit.  `acc` is `self.rectangles` (already reset
to `[]` before the loop), `m` is `max_qnum`.  For each record: evaluate
`int(item['x'])`, `int(item['y'])`, `int(item['width'])`, `int(item['height'])`
(a missing key or failed conversion raises before anything is appended), read
`item['question_number']` (missing key raises), append the pair, then compute
`max(max_qnum, qnum)` (a non-numeric tag raises `TypeError` *after* the
append).  Returns the final rectangle list and `some max_qnum` on success,
`none` when the loop raised. -/
def loadRegionsAux :
    List RawRecord → List (Rect × JVal) → ℚ → List (Rect × JVal) × Option ℚ
  | [], acc, m => (acc, some m)
  | item :: rest, acc, m =>
    match getIntField item.x, getIntField item.y,
          getIntField item.width, getIntField item.height with
    | some x, some y, some w, some h =>
      match item.question_number with
      | some qnum =>
        let acc' := acc ++ [(Rect.ofXYWH x y w h, qnum)]
        match qnum with
        | .num q => loadRegionsAux rest acc' (max m q)
        | _ => (acc', none)
      | none => (acc, none)
    | _, _, _, _ => (acc, none)

/-- `ImageCropWidget.load_regions_config` on an already JSON-parsed record
list: `self.rectangles` is cleared *inside* the `try`, the records are
replayed, and on success the counter becomes `max_qnum + 1` and `True` is
returned; an exception is caught and `False` returned — but the partially
rebuilt rectangle list remains installed, only the counter keeps its prior
value. -/
def load_regions_config (s : RegionStore) (config : List RawRecord) :
    RegionStore × Bool :=
  match loadRegionsAux config [] 0 with
  | (rects, some m) => (⟨rects, m + 1⟩, true)
  | (rects, none) => (⟨rects, s.current_question_number⟩, false)

/-- A record on which the load loop cannot raise: all five keys present,
the four coordinates int-convertible, the question number a JSON number. -/
def recordOk (r : RawRecord) : Bool :=
  (getIntField r.x).isSome && (getIntField r.y).isSome &&
  (getIntField r.width).isSome && (getIntField r.height).isSome &&
  (match r.question_number with | some (.num _) => true | _ => false)

/-- A well-formed persistence file: every record is `recordOk`. -/
def configOk (config : List RawRecord) : Bool := config.all recordOk

/-- The coordinate mapping of `ImageCropWidget.get_cropped_regions`: the crop
box passed to `Image.crop` is
`(int(x/scale), int(y/scale), int(right/scale), int(bottom/scale))`
with Qt's `right`/`bottom` accessors. -/
def cropBounds (r : Rect) (scale_factor : ℚ) : ℤ × ℤ × ℤ × ℤ :=
  (pyInt ((r.x : ℚ) / scale_factor), pyInt ((r.y : ℚ) / scale_factor),
   pyInt ((r.right : ℚ) / scale_factor), pyInt ((r.bottom : ℚ) / scale_factor))

/-- The Region Store states reachable through the admitted user operations:
the initial empty store, rectangle admission on mouse release, and undo. -/
inductive Reachable : RegionStore → Prop
  | init : Reachable RegionStore.init
  | release (s : RegionStore) (p q : ℤ × ℤ) :
      Reachable s → Reachable (mouseReleaseEvent s p q)
  | undo (s : RegionStore) : Reachable s → Reachable (clear_last s)

/-- A concrete store: one admitted region (a 21×21-pixel rectangle drawn from
(0,0) to (20,20), question number 1) with the counter at 2. -/
def sampleStore : RegionStore := ⟨[(⟨0, 0, 20, 20⟩, JVal.num 1)], 2⟩

/-- A concrete well-formed persistence file holding one record whose width
and height are 5 — below the 10-pixel admission threshold of
`mouseReleaseEvent`. -/
def smallConfig : List RawRecord :=
  [⟨some (JVal.num 1), some (JVal.num 0), some (JVal.num 0),
    some (JVal.num 5), some (JVal.num 5)⟩]

/-- A concrete malformed persistence file: the single record lacks the `x`
key, so `int(item['x'])` raises `KeyError` during deserialization. -/
def missingXConfig : List RawRecord :=
  [⟨some (JVal.num 1), none, some (JVal.num 0),
    some (JVal.num 5), some (JVal.num 5)⟩]

/-! ## Lemmas about the header scan -/

lemma headerScanAux_some (grid : List (List Cell)) :
    ∀ (fuel i k : ℕ), i ≤ k → k < i + fuel →
      rowHasNameMarker (grid.getD k []) = true →
      (∀ j, i ≤ j → j < k → rowHasNameMarker (grid.getD j []) = false) →
      headerScanAux grid fuel i = some k := by
  intro fuel
  induction fuel with
  | zero => intro i k h1 h2 _ _; omega
  | succ n ih =>
    intro i k h1 h2 hk hprev
    by_cases hi : rowHasNameMarker (grid.getD i []) = true
    · have hki : k = i := by
        by_contra hne
        have hlt : i < k := lt_of_le_of_ne h1 (Ne.symm hne)
        have := hprev i le_rfl hlt
        rw [hi] at this
        exact Bool.true_eq_false.mp this
      subst hki
      unfold headerScanAux
      rw [hi]
      rfl
    · have hi' : rowHasNameMarker (grid.getD i []) = false :=
        Bool.eq_false_iff.mpr hi
      have hik : i ≠ k := by
        rintro rfl
        rw [hk] at hi'
        exact Bool.true_eq_false.mp hi'
      simp only [headerScanAux, hi', if_false, Bool.false_eq_true]
      exact ih (i + 1) k (by omega) (by omega) hk
        (fun j hj1 hj2 => hprev j (by omega) hj2)

lemma headerScanAux_none (grid : List (List Cell)) :
    ∀ (fuel i : ℕ),
      (∀ j, i ≤ j → j < i + fuel → rowHasNameMarker (grid.getD j []) = false) →
      headerScanAux grid fuel i = none := by
  intro fuel
  induction fuel with
  | zero => intro i _; rfl
  | succ n ih =>
    intro i h
    have hi : rowHasNameMarker (grid.getD i []) = false := h i le_rfl (by omega)
    simp only [headerScanAux, hi, if_false, Bool.false_eq_true]
    exact ih (i + 1) (fun j hj1 hj2 => h j (by omega) (by omega))

/-! ## C5: header detection -/

/-- C5: for every raw grid, the loader selects as header row the first row
`k < min(5, row_count)` some of whose stringified cells contains the identity
marker `"姓名"` (no earlier row containing it), and re-parses with row `k` as
the header; if no row among the scanned window contains the marker, the grid
is parsed with the default first-row-as-header convention. -/
theorem header_detection (grid : List (List Cell)) :
    (∀ k, k < min 5 grid.length →
        rowHasNameMarker (grid.getD k []) = true →
        (∀ j, j < k → rowHasNameMarker (grid.getD j []) = false) →
        headerRowIndex grid = some k ∧
          (load_excel grid).headers = (grid.getD k []).map cellStr) ∧
    ((∀ j, j < min 5 grid.length → rowHasNameMarker (grid.getD j []) = false) →
      headerRowIndex grid = none ∧
        (load_excel grid).headers = (grid.headD []).map cellStr) := by
  constructor
  · intro k hk hmark hprev
    have hidx : headerRowIndex grid = some k :=
      headerScanAux_some grid _ 0 k (Nat.zero_le k) (by omega) hmark
        (fun j _ hj => hprev j hj)
    refine ⟨hidx, ?_⟩
    unfold load_excel
    rw [hidx]
  · intro hnone
    have hidx : headerRowIndex grid = none :=
      headerScanAux_none grid _ 0 (fun j _ hj => hnone j (by omega))
    refine ⟨hidx, ?_⟩
    unfold load_excel
    rw [hidx]
    cases grid with
    | nil => rfl
    | cons r rest => rfl

/-- Witness for C5: on the concrete grid `[["a"], ["姓名"], ["b"]]` the
second row is selected as header; on `[["x"], ["得分"]]` no header is found
and the first row becomes the header. -/
theorem header_detection_witness :
    (headerRowIndex [[strCell "a"], [strCell "姓名"], [strCell "b"]] = some 1 ∧
      (load_excel [[strCell "a"], [strCell "姓名"], [strCell "b"]]).headers =
        ([strCell "姓名"]).map cellStr) ∧
    (headerRowIndex [[strCell "x"], [strCell "得分"]] = none ∧
      (load_excel [[strCell "x"], [strCell "得分"]]).headers =
        (([[strCell "x"], [strCell "得分"]] : List (List Cell)).headD []).map cellStr) :=
  ⟨(header_detection [[strCell "a"], [strCell "姓名"], [strCell "b"]]).1 1
      (by decide) (by decide)
      (by intro j hj; interval_cases j; decide),
   (header_detection [[strCell "x"], [strCell "得分"]]).2
      (by
        intro j hj
        have he : min 5 (List.length [[strCell "x"], [strCell "得分"]]) = 2 := rfl
        rw [he] at hj
        interval_cases j <;> decide)⟩

/-! ## C4: score-label row removal -/

/-- C4 counterexample: the claim quantifies over every raw grid, but the
score-label drop only runs on the found-header path.  On the grid
`[["x"], ["得分"]]` no row contains the identity marker, the fallback
first-row-as-header path is taken, and the first post-header data row — whose
concatenated text contains the marker `"得分"` — stays in the resulting
table's data rows instead of being absent. -/
theorem score_label_removal_cex :
    strIn "得分" (joinSpace [strCell "得分"]) = true ∧
      (load_excel [[strCell "x"], [strCell "得分"]]).rows = [[strCell "得分"]] := by
  decide

/-- C4 (amended): on the found-header path — a header row `k` was selected —
if the first post-header data row's concatenated cell text contains the
score-label marker `"得分"`, that row is dropped, the resulting data rows are
exactly the remaining raw rows, and (when none of the remaining rows is fully
empty, so that `dropna` removes nothing further) the resulting row count is
one less than the raw post-header data-row count. -/
theorem score_label_removal (grid : List (List Cell)) (k : ℕ)
    (r0 : List Cell) (rest : List (List Cell))
    (hidx : headerRowIndex grid = some k)
    (hdrop : grid.drop (k + 1) = r0 :: rest)
    (hmark : strIn "得分" (joinSpace r0) = true)
    (hclean : ∀ r ∈ rest, rowAllMissing r = false) :
    (load_excel grid).rows = rest ∧
      (load_excel grid).rows.length + 1 + (k + 1) = grid.length := by
  have hrows : (load_excel grid).rows = rest := by
    simp only [load_excel, hidx]
    rw [hdrop]
    simp only [if_pos hmark]
    unfold dropAllMissing
    rw [List.filter_eq_self.mpr]
    intro r hr
    rw [hclean r hr]
    rfl
  refine ⟨hrows, ?_⟩
  have hlen : (grid.drop (k + 1)).length = grid.length - (k + 1) :=
    List.length_drop _ _
  rw [hdrop] at hlen
  rw [hrows]
  simp only [List.length_cons] at hlen
  omega

/-- Witness for C4: the grid `[["姓名"], ["得分"], ["Bob"]]` selects row 0 as
header, drops the `"得分"` row, and keeps exactly the one remaining row. -/
theorem score_label_removal_witness :
    (load_excel [[strCell "姓名"], [strCell "得分"], [strCell "Bob"]]).rows =
        [[strCell "Bob"]] ∧
      (load_excel [[strCell "姓名"], [strCell "得分"], [strCell "Bob"]]).rows.length
          + 1 + (0 + 1) =
        (([[strCell "姓名"], [strCell "得分"], [strCell "Bob"]] : List (List Cell))).length :=
  score_label_removal [[strCell "姓名"], [strCell "得分"], [strCell "Bob"]] 0
    [strCell "得分"] [[strCell "Bob"]] (by decide) (by decide) (by decide)
    (by decide)

/-! ## C6: zero score counts as wrong -/

/-- C6: for any tally state and any non-skipped row (identity cell not
skipped, cell text not an unanswered token) whose cell parses as the number
`v`: if `v` is exactly zero the student's stripped identity text is appended
to the wrong list and the wrong count increments by exactly one (correct
count unchanged); if `v` is nonzero the correct count increments by exactly
one and the wrong list and wrong count are unchanged (the name is not added). -/
theorem zero_score_is_wrong (st : ScoreState) (nameCell scoreCell : Cell)
    (v : ℚ)
    (hname : skipNameRow nameCell = false)
    (hans : unansweredTokens.contains (pyStrip scoreCell.text) = false)
    (hv : scoreCell.toFloat = some v) :
    (v = 0 →
      scoreStep st nameCell scoreCell =
        { st with wrong_students := st.wrong_students ++ [pyStrip nameCell.text],
                  wrong_count := st.wrong_count + 1,
                  total_students := st.total_students + 1 }) ∧
    (v ≠ 0 →
      scoreStep st nameCell scoreCell =
        { st with correct_count := st.correct_count + 1,
                  total_students := st.total_students + 1 }) := by
  have hans' : pyStrip scoreCell.text ∉ unansweredTokens := by simpa using hans
  constructor
  · intro h0
    simp [scoreStep, hname, hans', hv, h0]
  · intro h0
    simp [scoreStep, hname, hans', hv, h0]

/-- Witness for C6: student "Bob" with a cell holding `0.0` lands on the
wrong list with wrong count 1; with a cell holding `2` the correct count
increments and the wrong list stays empty. -/
theorem zero_score_is_wrong_witness :
    scoreStep initState (strCell "Bob") (numCell 0 "0.0") =
        { initState with wrong_students := ["Bob"], wrong_count := 1,
                         total_students := 1 } ∧
      scoreStep initState (strCell "Bob") (numCell 2 "2") =
        { initState with correct_count := 1, total_students := 1 } :=
  ⟨(zero_score_is_wrong initState (strCell "Bob") (numCell 0 "0.0") 0
      (by decide) (by decide) rfl).1 rfl,
   (zero_score_is_wrong initState (strCell "Bob") (numCell 2 "2") 2
      (by decide) (by decide) rfl).2 (by norm_num)⟩

/-! ## C8: unanswered and non-numeric cells are excluded -/

/-- C8: a row whose stripped cell text is one of the unanswered tokens
(`-`, empty, `nan`, `NaN`), or whose cell fails numeric parsing (e.g. a
multiple-choice letter), leaves the whole tally — wrong list, correct count,
wrong count and total — completely unchanged. -/
theorem unanswered_nonnumeric_excluded (st : ScoreState)
    (nameCell scoreCell : Cell)
    (h : unansweredTokens.contains (pyStrip scoreCell.text) = true ∨
      scoreCell.toFloat = none) :
    scoreStep st nameCell scoreCell = st := by
  unfold scoreStep
  by_cases hn : skipNameRow nameCell
  · simp [hn]
  · rcases h with h | h
    · have h' : pyStrip scoreCell.text ∈ unansweredTokens := by simpa using h
      simp [hn, h']
    · simp [hn, h]

/-- Witness for C8: an unanswered `"-"` cell and a multiple-choice `"A"`
cell both leave the initial tally untouched. -/
theorem unanswered_nonnumeric_excluded_witness :
    scoreStep initState (strCell "Bob") (strCell "-") = initState ∧
      scoreStep initState (strCell "Bob") (strCell "A") = initState :=
  ⟨unanswered_nonnumeric_excluded initState (strCell "Bob") (strCell "-")
      (Or.inl (by decide)),
   unanswered_nonnumeric_excluded initState (strCell "Bob") (strCell "A")
      (Or.inr rfl)⟩

/-! ## C3: single-role classification -/

/-- C3 counterexample: identity selection and score-column detection are two
independent scans, not one first-match-wins rule chain.  For the header list
`["姓名题"]` the single column is chosen as the identity column *and* appears
in the subjective score-column list, so the identity column is not excluded
from the score lists as claimed. -/
theorem single_role_classification_cex :
    findNameColumn ["姓名题"] = "姓名题" ∧
      "姓名题" ∈ subjectiveColumns ["姓名题"] := by
  decide

/-- C3 (amended): within the score lists the classification is single-role:
no column is in both the subjective and the objective list, and a column is a
detected question column iff it is in exactly one of the two (the fixed
sub-check order — subjective marker first, then objective marker, else
default subjective — makes double classification of score roles impossible).
However the identity column is selected by an independent scan and may
additionally appear among the score columns when its header also carries a
score marker. -/
theorem single_role_classification (headers : List String) (col : String) :
    ¬(col ∈ subjectiveColumns headers ∧ col ∈ objectiveColumns headers) ∧
      (col ∈ allQuestionColumns headers ↔
        col ∈ subjectiveColumns headers ∨ col ∈ objectiveColumns headers) := by
  constructor
  · rintro ⟨hs, ho⟩
    rw [subjectiveColumns, List.mem_filter] at hs
    rw [objectiveColumns, List.mem_filter] at ho
    rcases hs with ⟨-, hs⟩
    rcases ho with ⟨-, ho⟩
    cases hsm : hasSubjMarker col <;> cases hom : hasObjMarker col <;>
      simp [hsm, hom] at hs ho
  · constructor
    · intro hq
      by_cases hsm : (hasSubjMarker col || !hasObjMarker col) = true
      · exact Or.inl (by rw [subjectiveColumns, List.mem_filter]; exact ⟨hq, hsm⟩)
      · refine Or.inr (by
          rw [objectiveColumns, List.mem_filter]
          refine ⟨hq, ?_⟩
          cases h1 : hasSubjMarker col <;> cases h2 : hasObjMarker col <;>
            simp [h1, h2] at hsm ⊢)
    · rintro (h | h)
      · exact (List.mem_filter.mp (by rwa [subjectiveColumns] at h)).1
      · exact (List.mem_filter.mp (by rwa [objectiveColumns] at h)).1

/-! ## C7: score-column selection and question numbering -/

/-- C7: scoring uses the subjective column list whenever it is non-empty and
otherwise falls back to the full detected question-column list; the question
number attached to each record is the 1-based sequential position of its
column within the chosen list (the keys are exactly `1..n` in order, and the
`i`-th record scores the `i`-th chosen column). -/
theorem score_column_selection (t : Table) :
    (subjectiveColumns t.headers ≠ [] →
      chosenScoreColumns t.headers = subjectiveColumns t.headers) ∧
    (subjectiveColumns t.headers = [] →
      chosenScoreColumns t.headers = allQuestionColumns t.headers) ∧
    (analyze_questions t).map Prod.fst =
      List.range' 1 (chosenScoreColumns t.headers).length ∧
    ∀ i c, (chosenScoreColumns t.headers)[i]? = some c →
      (analyze_questions t)[i]? = some (i + 1, scoreOneColumn t c) := by
  refine ⟨?_, ?_, ?_, ?_⟩
  · intro h
    simp [chosenScoreColumns, List.isEmpty_iff, h]
  · intro h
    simp [chosenScoreColumns, h]
  · unfold analyze_questions
    rw [List.map_map, List.range'_eq_map_range]
    have h1 : (Prod.fst ∘ fun p : ℕ × String => (p.1 + 1, scoreOneColumn t p.2)) =
        (fun a => a + 1) ∘ Prod.fst := rfl
    rw [h1, ← List.map_map, List.enum_map_fst]
    exact List.map_congr_left fun a _ => Nat.add_comm a 1
  · intro i c hc
    unfold analyze_questions
    rw [List.getElem?_map, List.getElem?_enum, hc]
    rfl

/-- Witness for C7: with headers `["姓名", "主-1 (满分: 2)"]` the subjective
list is chosen, and entry 0 of the analysis carries question number 1 and
scores the subjective column. -/
theorem score_column_selection_witness :
    chosenScoreColumns (Table.mk ["姓名", "主-1 (满分: 2)"] []).headers =
        subjectiveColumns (Table.mk ["姓名", "主-1 (满分: 2)"] []).headers ∧
      (analyze_questions (Table.mk ["姓名", "主-1 (满分: 2)"] []))[0]? =
        some (1, scoreOneColumn (Table.mk ["姓名", "主-1 (满分: 2)"] [])
          "主-1 (满分: 2)") :=
  ⟨(score_column_selection (Table.mk ["姓名", "主-1 (满分: 2)"] [])).1
      (by decide),
   (score_column_selection (Table.mk ["姓名", "主-1 (满分: 2)"] [])).2.2.2 0
      "主-1 (满分: 2)" (by decide)⟩

/-! ## C2: crop coordinate mapping -/

/-- The executable `Rat.floor` agrees with the mathematical floor. -/
lemma ratFloor_eq_floor (q : ℚ) : q.floor = ⌊q⌋ :=
  (Rat.floor_def' q).trans Rat.floor_def.symm

/-- C2 counterexample: `QRect.right()` is `x + width - 1`, not `x + width`,
so for scale factor 1/2 the display rectangle (100, 100, 50, 50) maps to
(200, 200, 298, 298) — while the claim's formula `floor((x + width)/s)` gives
300 for the right bound. -/
theorem crop_coordinate_mapping_cex :
    cropBounds (Rect.ofXYWH 100 100 50 50) (1 / 2) = (200, 200, 298, 298) ∧
      ⌊(((100 : ℚ) + 50) / (1 / 2))⌋ = 300 := by
  constructor
  · unfold cropBounds pyInt Rect.ofXYWH Rect.x Rect.y Rect.right Rect.bottom
    norm_num [ratFloor_eq_floor]
  · norm_num

/-- C2 (amended): for every stored region with non-negative position and
positive size and every scale factor `s > 0`, the crop box is
`left = floor(x/s)`, `top = floor(y/s)`, `right = floor((x + width − 1)/s)`,
`bottom = floor((y + height − 1)/s)` — Qt's `QRect.right()`/`bottom()` are
inclusive corners, one less than `x + width` / `y + height`. -/
theorem crop_coordinate_mapping (x y w h : ℤ) (s : ℚ)
    (hx : 0 ≤ x) (hy : 0 ≤ y) (hw : 1 ≤ w) (hh : 1 ≤ h) (hs : 0 < s) :
    cropBounds (Rect.ofXYWH x y w h) s =
      (⌊(x : ℚ) / s⌋, ⌊(y : ℚ) / s⌋,
       ⌊((x : ℚ) + w - 1) / s⌋, ⌊((y : ℚ) + h - 1) / s⌋) := by
  have hInt : ∀ a : ℤ, 0 ≤ a → pyInt ((a : ℚ) / s) = ⌊(a : ℚ) / s⌋ := by
    intro a ha
    unfold pyInt
    rw [if_neg (not_lt.mpr (div_nonneg (by exact_mod_cast ha) hs.le))]
    exact ratFloor_eq_floor _
  unfold cropBounds Rect.ofXYWH Rect.x Rect.y Rect.right Rect.bottom
  rw [hInt x hx, hInt y hy, hInt (x + w - 1) (by omega), hInt (y + h - 1) (by omega)]
  push_cast
  rfl

/-- Witness for C2 (amended): evaluating the amended formula at the spec's
own example (scale factor 1/2, display rectangle (100, 100, 50, 50)) gives
the crop box (200, 200, 298, 298). -/
theorem crop_coordinate_mapping_witness :
    cropBounds (Rect.ofXYWH 100 100 50 50) (1 / 2) = (200, 200, 298, 298) := by
  rw [crop_coordinate_mapping 100 100 50 50 (1 / 2) (by norm_num) (by norm_num)
    (by norm_num) (by norm_num) (by norm_num)]
  norm_num

/-! ## C1: deserialize failure behaviour -/

/-- The record loop succeeds exactly on well-formed configs, whatever the
accumulator and running maximum. -/
lemma loadRegionsAux_isSome (config : List RawRecord) :
    ∀ (acc : List (Rect × JVal)) (m : ℚ),
      (loadRegionsAux config acc m).2.isSome = configOk config := by
  induction config with
  | nil => intro acc m; rfl
  | cons item rest ih =>
    intro acc m
    have hok : configOk (item :: rest) = (recordOk item && configOk rest) := by
      simp [configOk, List.all_cons]
    rw [hok]
    rcases hx : getIntField item.x with _ | x
    · simp [loadRegionsAux, hx, recordOk]
    rcases hy : getIntField item.y with _ | y
    · simp [loadRegionsAux, hx, hy, recordOk]
    rcases hw2 : getIntField item.width with _ | w
    · simp [loadRegionsAux, hx, hy, hw2, recordOk]
    rcases hh2 : getIntField item.height with _ | hh
    · simp [loadRegionsAux, hx, hy, hw2, hh2, recordOk]
    rcases hq : item.question_number with _ | q
    · simp [loadRegionsAux, hx, hy, hw2, hh2, hq, recordOk]
    rcases q with q | s2 | _
    · rw [show loadRegionsAux (item :: rest) acc m =
            loadRegionsAux rest
              (acc ++ [(Rect.ofXYWH x y w hh, JVal.num q)]) (max m q) from by
          simp [loadRegionsAux, hx, hy, hw2, hh2, hq]]
      rw [ih]
      simp [recordOk, hx, hy, hw2, hh2, hq]
    · simp [loadRegionsAux, hx, hy, hw2, hh2, hq, recordOk]
    · simp [loadRegionsAux, hx, hy, hw2, hh2, hq, recordOk]

/-- C1 (amended): for every prior store state and every malformed record list
(some record lacking one of the keys, holding a coordinate that is not
int-convertible, or a non-numeric question number), deserialization reports
failure (returns `False`, surfaced to the operator as a load error) and
leaves the next-question-number counter unchanged — but it does NOT leave the
rectangle list as it was: the list was cleared inside the `try` and holds the
partially replayed records, a result independent of the prior store's
contents. -/
theorem deserialize_failure_behavior (s s' : RegionStore)
    (config : List RawRecord) (hbad : configOk config = false) :
    (load_regions_config s config).2 = false ∧
    (load_regions_config s config).1.current_question_number =
      s.current_question_number ∧
    (load_regions_config s config).1.rectangles =
      (load_regions_config s' config).1.rectangles := by
  have h := loadRegionsAux_isSome config [] 0
  rw [hbad] at h
  unfold load_regions_config
  rcases hres : loadRegionsAux config [] 0 with ⟨rects, mm⟩
  rw [hres] at h
  rcases mm with _ | m
  · exact ⟨rfl, rfl, rfl⟩
  · simp at h

/-- C1 counterexample: against the claim, the store is not left as it was.
Deserializing the malformed `missingXConfig` (record lacking the `x` key)
into a store holding one rectangle reports failure but leaves the rectangle
list empty — the prior contents are gone. -/
theorem deserialize_atomicity_cex :
    (load_regions_config sampleStore missingXConfig).2 = false ∧
      (load_regions_config sampleStore missingXConfig).1.rectangles ≠
        sampleStore.rectangles := by
  decide

/-- Witness for C1 (amended): at the concrete malformed `missingXConfig` and
two different prior stores, deserialization returns failure, keeps the
counter, and produces the same rectangle list whatever the prior store. -/
theorem deserialize_failure_behavior_witness :
    configOk missingXConfig = false ∧
      ((load_regions_config sampleStore missingXConfig).2 = false ∧
        (load_regions_config sampleStore missingXConfig).1.current_question_number =
          sampleStore.current_question_number ∧
        (load_regions_config sampleStore missingXConfig).1.rectangles =
          (load_regions_config RegionStore.init missingXConfig).1.rectangles) :=
  ⟨by decide,
   deserialize_failure_behavior sampleStore RegionStore.init missingXConfig
     (by decide)⟩

/-! ## C9: region store round trip -/

/-- Python `int()` of an integer-valued ratio is that integer. -/
lemma pyInt_intCast (n : ℤ) : pyInt (n : ℚ) = n := by
  unfold pyInt
  by_cases h : (n : ℚ) < 0
  · rw [if_pos h, ratFloor_eq_floor, ← Int.cast_neg, Int.floor_intCast, neg_neg]
  · rw [if_neg h, ratFloor_eq_floor, Int.floor_intCast]

/-- Rebuilding a rectangle from its own accessor quadruple gives it back:
`QRect(r.x(), r.y(), r.width(), r.height()) = r`. -/
lemma Rect.ofXYWH_roundtrip (r : Rect) :
    Rect.ofXYWH r.x r.y r.width r.height = r := by
  cases r with
  | mk a b c d =>
    simp only [Rect.ofXYWH, Rect.x, Rect.y, Rect.width, Rect.height, Rect.mk.injEq]
    exact ⟨trivial, trivial, by ring, by ring⟩

/-- Reading back a serialized integer coordinate succeeds and is lossless. -/
lemma getIntField_serialize (n : ℤ) :
    getIntField (some (JVal.num (n : ℚ))) = some n := by
  simp [getIntField, JVal.pyIntOf, pyInt_intCast]

/-- Replaying the serialization of a rectangle list whose tags are all JSON
numbers appends exactly that list and accumulates the running maximum of the
tags. -/
lemma loadRegionsAux_serialize (rs : List (Rect × JVal)) :
    ∀ (qs : List ℚ) (acc : List (Rect × JVal)) (m : ℚ),
      rs.map Prod.snd = qs.map JVal.num →
      loadRegionsAux (rs.map serializeRegion) acc m =
        (acc ++ rs, some (qs.foldl max m)) := by
  induction rs with
  | nil =>
    intro qs acc m hq
    cases qs with
    | nil => simp [loadRegionsAux]
    | cons a t => simp at hq
  | cons p rest ih =>
    intro qs acc m hq
    cases qs with
    | nil => simp at hq
    | cons q qt =>
      simp only [List.map_cons, List.cons.injEq] at hq
      rcases hq with ⟨hpq, hrest⟩
      obtain ⟨r1, p2⟩ := p
      simp only at hpq
      subst hpq
      have hstep : loadRegionsAux
            (serializeRegion (r1, JVal.num q) :: List.map serializeRegion rest)
            acc m =
          loadRegionsAux (List.map serializeRegion rest)
            (acc ++ [(r1, JVal.num q)]) (max m q) := by
        simp [loadRegionsAux, serializeRegion, getIntField_serialize,
          Rect.ofXYWH_roundtrip]
      rw [List.map_cons, hstep, ih qt (acc ++ [(r1, JVal.num q)]) (max m q) hrest]
      simp

/-- The running maximum of the tag sequence `1, 2, …, n` starting from 0
is `n`, for non-empty stores. -/
lemma foldl_max_range (n : ℕ) (hn : 1 ≤ n) :
    (((List.range n).map fun i : ℕ => ((i : ℚ) + 1)).foldl max 0) = n := by
  induction n with
  | zero => omega
  | succ k ih =>
    rcases Nat.eq_zero_or_pos k with h0 | hpos
    · subst h0
      simp [List.range_succ, max_eq_right]
    · rw [List.range_succ, List.map_append, List.foldl_append, ih hpos]
      simp only [List.map_cons, List.map_nil, List.foldl_cons, List.foldl_nil]
      rw [max_eq_right (by linarith)]
      push_cast
      ring

/-- Every store reachable through admitted appends and undos carries question
numbers `1..n` in order, its counter one past the last tag, and only
rectangles above the admission size threshold. -/
lemma reachable_invariant (s : RegionStore) (h : Reachable s) :
    s.rectangles.map Prod.snd =
      (List.range s.rectangles.length).map (fun i : ℕ => JVal.num ((i : ℚ) + 1)) ∧
    s.current_question_number = (s.rectangles.length : ℚ) + 1 ∧
    ∀ p ∈ s.rectangles, 10 < p.1.width ∧ 10 < p.1.height := by
  induction h with
  | init => exact ⟨rfl, by norm_num [RegionStore.init], by simp [RegionStore.init]⟩
  | release s' p q hr ih =>
    rcases ih with ⟨h1, h2, h3⟩
    by_cases hadm : 10 < ((Rect.ofPoints p q).normalized).width ∧
        10 < ((Rect.ofPoints p q).normalized).height
    · rw [show mouseReleaseEvent s' p q =
          { rectangles := s'.rectangles ++
              [((Rect.ofPoints p q).normalized, JVal.num s'.current_question_number)],
            current_question_number := s'.current_question_number + 1 } from by
        simp only [mouseReleaseEvent]
        rw [if_pos hadm]]
      refine ⟨?_, ?_, ?_⟩
      · simp only [List.map_append, List.length_append, List.map_cons,
          List.map_nil, List.length_cons, List.length_nil]
        rw [h1, h2]
        rw [show s'.rectangles.length + (0 + 1) = s'.rectangles.length + 1 from by omega,
          List.range_succ, List.map_append]
        simp
      · simp only [List.length_append, List.length_cons, List.length_nil]
        rw [h2]
        push_cast
        ring
      · intro r hr2
        rcases List.mem_append.mp hr2 with hmem | hmem
        · exact h3 r hmem
        · rw [List.mem_singleton.mp hmem]
          exact hadm
    · rw [show mouseReleaseEvent s' p q = s' from by
        simp only [mouseReleaseEvent]
        rw [if_neg hadm]]
      exact ⟨h1, h2, h3⟩
  | undo s' hr ih =>
    rcases ih with ⟨h1, h2, h3⟩
    unfold clear_last
    split
    case isTrue hemp => exact ⟨h1, h2, h3⟩
    case isFalse hemp =>
      have hne : s'.rectangles ≠ [] := by
        intro he
        exact hemp (by simp [he])
      have hlen : 1 ≤ s'.rectangles.length := List.length_pos.mpr hne
      refine ⟨?_, ?_, ?_⟩
      · rw [show (s'.rectangles.dropLast).map Prod.snd =
              (s'.rectangles.map Prod.snd).dropLast from
            List.map_dropLast _ _, h1, List.length_dropLast]
        have hsplit : List.range s'.rectangles.length =
            List.range (s'.rectangles.length - 1) ++ [s'.rectangles.length - 1] := by
          rw [← List.range_succ]
          congr 1
          omega
        rw [hsplit, List.map_append, List.map_cons, List.map_nil,
          List.dropLast_concat]
      · rw [List.length_dropLast, h2]
        have : ((s'.rectangles.length - 1 : ℕ) : ℚ) =
            (s'.rectangles.length : ℚ) - 1 := by
          push_cast [hlen]
          ring
        rw [this]
        ring
      · intro r hr2
        exact h3 r ((List.dropLast_prefix _).subset hr2)

/-- C9: for every non-empty Region Store reachable by admitted appends and
undos, deserializing its own serialization succeeds and restores exactly the
same ordered rectangle list with the same question numbers, and the counter —
reset to `max(question_number) + 1` — equals the store's counter. -/
theorem region_store_round_trip (s : RegionStore) (hr : Reachable s)
    (hne : s.rectangles ≠ []) :
    load_regions_config s (save_regions_config s) = (s, true) := by
  rcases reachable_invariant s hr with ⟨h1, h2, -⟩
  have hlen : 1 ≤ s.rectangles.length := List.length_pos.mpr hne
  have haux := loadRegionsAux_serialize s.rectangles
    ((List.range s.rectangles.length).map fun i : ℕ => ((i : ℚ) + 1)) [] 0 ?_
  · unfold load_regions_config save_regions_config
    rw [haux, foldl_max_range _ hlen]
    simp only [List.nil_append]
    cases s with
    | mk rects counter =>
      simp only at h2
      rw [h2]
  · rw [h1, List.map_map]
    rfl

/-- The concrete one-region store is reachable: draw one admitted rectangle
on the empty store. -/
lemma sampleStore_reachable : Reachable sampleStore := by
  have h := Reachable.release RegionStore.init (0, 0) (20, 20) Reachable.init
  have he : mouseReleaseEvent RegionStore.init (0, 0) (20, 20) = sampleStore := by
    unfold mouseReleaseEvent RegionStore.init sampleStore Rect.ofPoints
      Rect.normalized Rect.width Rect.height
    norm_num
  rwa [he] at h

/-- Witness for C9: the round trip at the concrete one-region store. -/
theorem region_store_round_trip_witness :
    load_regions_config sampleStore (save_regions_config sampleStore) =
      (sampleStore, true) :=
  region_store_round_trip sampleStore sampleStore_reachable (by decide)

/-! ## C10: deserialize bypasses the minimum-size admission check -/

/-- C10: deserializing the well-formed `smallConfig` — whose single record
has width and height 5, at or below the 10-pixel admission threshold —
succeeds, and the undersized region enters the store; consequently the
resulting store violates the `width > 10 ∧ height > 10` invariant that
`mouseReleaseEvent` enforces on every admitted region, and is not reachable
through admitted appends and undos. -/
theorem deserialize_bypasses_min_size :
    configOk smallConfig = true ∧
    (load_regions_config RegionStore.init smallConfig).2 = true ∧
    (load_regions_config RegionStore.init smallConfig).1.rectangles =
      [(Rect.ofXYWH 0 0 5 5, JVal.num 1)] ∧
    (Rect.ofXYWH 0 0 5 5).width = 5 ∧
    ¬Reachable (load_regions_config RegionStore.init smallConfig).1 := by
  refine ⟨by decide, by decide, by decide, by decide, ?_⟩
  intro hreach
  have h3 := (reachable_invariant _ hreach).2.2
  have hmem : (Rect.ofXYWH 0 0 5 5, JVal.num 1) ∈
      (load_regions_config RegionStore.init smallConfig).1.rectangles := by
    decide
  exact absurd ((h3 _ hmem).1) (by decide)

end Xiaoma
